import Mathlib

set_option maxHeartbeats 1000000

/-!
Verification development for the Moodly smart-journal training scripts.

The repository consists of four Python scripts that turn raw text into a
fixed-length numeric feature vector (averaged GloVe word embeddings,
TF-IDF weights of the fitted vectorizer, and hand-crafted lexical and
punctuation statistics) and train or export sentiment classifiers.

This file gives a shallow embedding of the pure, script-owned logic:

* the preprocessing regex pipelines
  (`Fast85AccuracyModel.smart_preprocess_text`,
  `convert_to_coreml.preprocess_text`,
  `EmotionModelTrainer.preprocess_text`,
  `AdvancedEnsembleModel.advanced_preprocess_text`);
* GloVe averaging (`text_to_glove_vector` in its three variants);
* smart feature extraction and feature assembly
  (`extract_smart_features`, `prepare_smart_features`,
  the feature assembly inside `SentimentPredictor.predict_sentiment`);
* dataset loading and filtering (`load_emotion_dataset`,
  `prepare_training_data`);
* artifact saving and CoreML conversion control flow
  (`save_optimized_model`, `save_advanced_ensemble`, `convert_to_coreml`),
  with file writes modelled as explicit event traces.

Numeric values are modelled over `ℚ`; library components (the fitted
TF-IDF vectorizer, the fitting procedure, the classifiers, joblib and
coremltools) are abstracted as parameters, since the scripts delegate to
them without reimplementing them.  A missing pandas value (NaN) is
modelled as `none : Option String`.
-/

/-! ## Python string and regex primitives

These model the exact string methods and regular expressions the scripts
use: `str.lower`, `str.split()`, `str.strip()`, `str.count`, and the
substitutions `re.sub(r'\s+', ' ', _)`, `re.sub(r'[^...]', '', _)`,
`re.sub(r'http\S+|www\S+|https\S+', '', _)` and `re.sub(r'@\w+|#\w+', '', _)`.
-/

/-- Python `\s` on ASCII text: space, tab, newline, carriage return,
vertical tab, form feed. -/
def pySpace (c : Char) : Bool :=
  c == ' ' || c == '\t' || c == '\n' || c == '\r' || c == '\u000B' || c == '\u000C'

/-- Negation of `pySpace`, i.e. Python `\S`. -/
def notSpace (c : Char) : Bool := !(pySpace c)

/-- ASCII lowercase letter `[a-z]`. -/
def isLowerAZ (c : Char) : Bool := decide (97 ≤ c.toNat) && decide (c.toNat ≤ 122)

/-- ASCII uppercase letter `[A-Z]`. -/
def isUpperAZ (c : Char) : Bool := decide (65 ≤ c.toNat) && decide (c.toNat ≤ 90)

/-- ASCII digit `[0-9]`. -/
def isDigitAZ (c : Char) : Bool := decide (48 ≤ c.toNat) && decide (c.toNat ≤ 57)

/-- Python `\w` word character `[a-zA-Z0-9_]`. -/
def wordChar (c : Char) : Bool := isLowerAZ c || isUpperAZ c || isDigitAZ c || c == '_'

/-- Character class kept by `re.sub(r'[^a-zA-Z\s.,!?]', '', text)`:
letters, whitespace, and the four sentiment punctuation marks. -/
def keepSmart (c : Char) : Bool :=
  isLowerAZ c || isUpperAZ c || pySpace c || c == '.' || c == ',' || c == '!' || c == '?'

/-- Character class kept by `re.sub(r'[^a-zA-Z0-9\s.,!?]', '', text)`
in train_custom_model.py, which additionally keeps digits. -/
def keepTrain (c : Char) : Bool := keepSmart c || isDigitAZ c

/-- Python `str.lower` on one ASCII character (uppercase letters move
down by 32, everything else is unchanged). -/
def pyLowerChar (c : Char) : Char :=
  if 65 ≤ c.toNat ∧ c.toNat ≤ 90 then Char.ofNat (c.toNat + 32) else c

/-- Python `str.lower` of a whole string, character by character. -/
def pyLower (l : List Char) : List Char := l.map pyLowerChar

/-- One pass of `re.sub(r'\s+', ' ', text)`: the flag records whether the
previous character belonged to a whitespace run that has already emitted
its single replacement space. -/
def squeezeAux : Bool → List Char → List Char
  | _, [] => []
  | prevSpace, c :: cs =>
    if pySpace c then
      if prevSpace then squeezeAux true cs
      else ' ' :: squeezeAux true cs
    else c :: squeezeAux false cs

/-- `re.sub(r'\s+', ' ', text)`: every maximal whitespace run becomes a
single space. -/
def squeeze (l : List Char) : List Char := squeezeAux false l

/-- Drop trailing whitespace (the right half of Python `str.strip`). -/
def dropEndSpace : List Char → List Char
  | [] => []
  | c :: cs =>
    match dropEndSpace cs with
    | [] => if pySpace c then [] else [c]
    | d :: ds => c :: d :: ds

/-- Python `str.strip()`: drop leading and trailing whitespace. -/
def pyStrip (l : List Char) : List Char := dropEndSpace (l.dropWhile pySpace)

/-- Does the list start with `http\S` or `www\S`, i.e. is this a match
position of `re.sub(r'http\S+|www\S+|https\S+', '', text)`?  (The
`https\S+` alternative is subsumed by `http\S+`.) -/
def startsUrl : List Char → Bool
  | 'h' :: 't' :: 't' :: 'p' :: c :: _ => notSpace c
  | 'w' :: 'w' :: 'w' :: c :: _ => notSpace c
  | _ => false

/-- Fuelled scanner for `re.sub(r'http\S+|www\S+|https\S+', '', text)`:
at a match position the greedy `\S+` consumes the rest of the non-space
run, and scanning resumes after it.  The fuel is the length of the list,
which each step consumes at least one character of. -/
def stripUrlsF : Nat → List Char → List Char
  | 0, l => l
  | _ + 1, [] => []
  | n + 1, c :: cs =>
    if startsUrl (c :: cs) then stripUrlsF n (cs.dropWhile notSpace)
    else c :: stripUrlsF n cs

/-- `re.sub(r'http\S+|www\S+|https\S+', '', text)`. -/
def stripUrls (l : List Char) : List Char := stripUrlsF l.length l

/-- Does the list start with a match of `@\w+|#\w+`? -/
def startsMention : List Char → Bool
  | c :: d :: _ => (c == '@' || c == '#') && wordChar d
  | _ => false

/-- Fuelled scanner for `re.sub(r'@\w+|#\w+', '', text)`: at a match the
greedy `\w+` consumes the rest of the word-character run. -/
def stripMentionsF : Nat → List Char → List Char
  | 0, l => l
  | _ + 1, [] => []
  | n + 1, c :: cs =>
    if startsMention (c :: cs) then stripMentionsF n (cs.dropWhile wordChar)
    else c :: stripMentionsF n cs

/-- `re.sub(r'@\w+|#\w+', '', text)`. -/
def stripMentions (l : List Char) : List Char := stripMentionsF l.length l

/-- Accumulator-based splitter behind `pySplit`; `cur` holds the current
word reversed. -/
def pySplitGo (cur : List Char) : List Char → List (List Char)
  | [] => if cur.isEmpty then [] else [cur.reverse]
  | c :: cs =>
    if pySpace c then
      if cur.isEmpty then pySplitGo [] cs else cur.reverse :: pySplitGo [] cs
    else pySplitGo (c :: cur) cs

/-- Python `str.split()` with no argument: split on whitespace runs and
drop empty words. -/
def pySplit (s : String) : List String := (pySplitGo [] s.toList).map String.mk

/-- Does `l` start with the pattern `p`? (used by `pyCount`). -/
def headMatches : List Char → List Char → Bool
  | [], _ => true
  | _ :: _, [] => false
  | p :: ps, c :: cs => p == c && headMatches ps cs

/-- Fuelled scanner counting non-overlapping occurrences of the pattern
`p :: ps`, as Python `str.count` does: after a match the scan resumes
past the matched text. -/
def countOccF (p : Char) (ps : List Char) : Nat → List Char → Nat
  | 0, _ => 0
  | _ + 1, [] => 0
  | n + 1, c :: cs =>
    if headMatches (p :: ps) (c :: cs) then countOccF p ps n (cs.drop ps.length) + 1
    else countOccF p ps n cs

/-- Python `text.count(pat)` for a non-empty pattern; for the empty
pattern Python returns `len(text) + 1`. -/
def pyCount (text pat : String) : Nat :=
  match pat.toList with
  | [] => text.length + 1
  | p :: ps => countOccF p ps text.toList.length text.toList

/-- Python `str.lower` as a `String → String` function (used for
`word.lower()` in the feature extractors). -/
def strLower (s : String) : String := String.mk (pyLower s.toList)

/-! ## GloVe vectors

The scripts use 100-dimensional GloVe embeddings (`embedding_dim = 100`,
`np.zeros(100)`).  The loaded embedding table is modelled as a finite
map from words to vectors, and a vector as a function `Fin 100 → ℚ`. -/

/-- A 100-dimensional embedding vector. -/
abbrev GVec := Fin 100 → ℚ

namespace FastModel

/-! Embedding of `scripts/fast_85_accuracy_model.py`
(`class Fast85AccuracyModel`). -/

/-- Core of `Fast85AccuracyModel.smart_preprocess_text` on an actual
string: lowercase, drop everything outside `[a-zA-Z\s.,!?]`, collapse
whitespace runs to single spaces, strip. -/
def smart_preprocess_core (s : String) : String :=
  String.mk (pyStrip (squeeze ((pyLower s.toList).filter keepSmart)))

/-- `Fast85AccuracyModel.smart_preprocess_text`; `none` models a NaN
cell, for which the function returns the empty string. -/
def smart_preprocess_text (text : Option String) : String :=
  match text with
  | none => ""
  | some s => smart_preprocess_core s

/-- `Fast85AccuracyModel.text_to_glove_vector`: average the embedding
vectors of the known words among the first `max_length` words, over a
running `np.zeros(100)` accumulator and a word counter; divide only when
the counter is positive. -/
def text_to_glove_vector (glove : String → Option GVec) (text : String)
    (max_length : Nat) : GVec :=
  let words := (pySplit text).take max_length
  let acc := words.foldl
    (fun (p : GVec × Nat) word =>
      match glove word with
      | some v => (p.1 + v, p.2 + 1)
      | none => p)
    ((fun _ => 0), 0)
  if acc.2 > 0 then (fun i => acc.1 i / (acc.2 : ℚ)) else acc.1

/-- The positive-word lexicon of `extract_smart_features`. -/
def positive_words : List String :=
  ["good", "great", "excellent", "amazing", "wonderful", "fantastic", "love",
   "happy", "joy", "smile", "beautiful", "perfect", "awesome", "brilliant"]

/-- The negative-word lexicon of `extract_smart_features` (the source
lists "hate" twice; the duplicate is kept). -/
def negative_words : List String :=
  ["bad", "terrible", "awful", "horrible", "hate", "sad", "angry", "frustrated",
   "disappointed", "worst", "hate", "disgusting", "annoying"]

/-- One row of `Fast85AccuracyModel.extract_smart_features`: the nine
lexical and punctuation statistics of a single text, in source order. -/
def smartRow (text : String) : List ℚ :=
  let words := pySplit text
  [ (text.length : ℚ),
    (words.length : ℚ),
    (pyCount text "!" : ℚ),
    (pyCount text "?" : ℚ),
    (words.countP (fun w => positive_words.contains (strLower w)) : ℚ),
    (words.countP (fun w => negative_words.contains (strLower w)) : ℚ),
    (pyCount text "!!" : ℚ),
    (pyCount text "??" : ℚ),
    (if words.isEmpty then 0
     else (words.map (fun w => (w.length : ℚ))).sum / (words.length : ℚ)) ]

/-- `Fast85AccuracyModel.extract_smart_features`: the n-by-9 matrix of
smart features, one row per text. -/
def extract_smart_features (texts : List String) : List (List ℚ) :=
  texts.map smartRow

end FastModel

/-- The `emotion_to_sentiment` dictionary shared verbatim by the three
training scripts; `pandas.Series.map` yields NaN (`none`) for keys
outside the dictionary. -/
def emotion_to_sentiment (e : String) : Option String :=
  if e = "happy" then some "positive"
  else if e = "love" then some "positive"
  else if e = "surprise" then some "neutral"
  else if e = "anger" then some "negative"
  else if e = "sadness" then some "negative"
  else if e = "fear" then some "negative"
  else none

/-- A row of `Emotion_final.csv` as the scripts read it: the `Emotion`
column and the `Text` column, each possibly NaN. -/
structure EmotionRow where
  Emotion : Option String
  Text : Option String

/-- Row-stack of three matrices side by side, modelling
`np.hstack([glove_features, tfidf_features, text_features])` on matrices
with equal row counts. -/
def hstack3 (a b c : List (List ℚ)) : List (List ℚ) :=
  List.zipWith (fun x y => x ++ y) (List.zipWith (fun x y => x ++ y) a b) c

namespace FastModel

/-- `Fast85AccuracyModel.load_emotion_dataset` up to the deterministic
filtering: map emotions to sentiments, drop rows whose `Text` or mapped
sentiment is NaN, preprocess the text, and keep only rows whose
preprocessed text is longer than 10 characters.  The subsequent
`df.sample(n=6000, random_state=42)` selects a subset of these rows and
is covered by quantifying over selections in the theorems. -/
def load_emotion_dataset (rows : List EmotionRow) : List (String × String) :=
  ((rows.filterMap (fun r =>
      match r.Emotion.bind emotion_to_sentiment, r.Text with
      | some s, some t => some (smart_preprocess_core t, s)
      | _, _ => none))).filter (fun p => 10 < p.1.length)

/-- The mutable state of `Fast85AccuracyModel` relevant to
`prepare_smart_features`: `self.tfidf_vectorizer`, which is `None` until
the first (fitting) call.  A fitted vectorizer is abstracted as the
dense-transform function it applies to one document. -/
structure FastState where
  tfidf_vectorizer : Option (String → List ℚ)

/-- `Fast85AccuracyModel.prepare_smart_features`: GloVe block, TF-IDF
block (fitting the vectorizer on the input texts when `self.tfidf_vectorizer`
is `None`, transforming with the stored one otherwise), smart-feature
block, horizontally stacked.  `fit` abstracts
`TfidfVectorizer(...).fit(texts)`; the call returns the feature matrix
together with the updated object state. -/
def prepare_smart_features (glove : String → Option GVec)
    (fit : List String → String → List ℚ) (s : FastState)
    (texts : List String) : List (List ℚ) × FastState :=
  let glove_features := texts.map (fun t => List.ofFn (text_to_glove_vector glove t 40))
  match s.tfidf_vectorizer with
  | none =>
    let v := fit texts
    let tfidf_features := texts.map v
    let text_features := extract_smart_features texts
    (hstack3 glove_features tfidf_features text_features, ⟨some v⟩)
  | some v =>
    let tfidf_features := texts.map v
    let text_features := extract_smart_features texts
    (hstack3 glove_features tfidf_features text_features, s)

/-- A file written by `joblib.dump`: which component was serialized, and
to which path. -/
inductive SavedFile (Em Sc Tf Gl : Type) where
  | ensemble (x : Em) (path : String)
  | scaler (x : Sc) (path : String)
  | tfidf (x : Tf) (path : String)
  | glove (x : Gl) (path : String)

/-- The four artifact fields of `Fast85AccuracyModel` (and of
`AdvancedEnsembleModel`, which has the same fields) at saving time;
`ensemble_model` is `None` until training has run. -/
structure Artifacts (Em Sc Tf Gl : Type) where
  ensemble_model : Option Em
  scaler : Sc
  tfidf_vectorizer : Tf
  glove_embeddings : Gl

/-- `Fast85AccuracyModel.save_optimized_model`: when an ensemble exists,
dump the four components to the four joblib files and return `True`;
otherwise return `False` without writing anything.  The returned list is
the trace of file writes. -/
def save_optimized_model {Em Sc Tf Gl : Type} (m : Artifacts Em Sc Tf Gl)
    (model_name : String) : Bool × List (SavedFile Em Sc Tf Gl) :=
  match m.ensemble_model with
  | some e =>
      (true,
       [SavedFile.ensemble e (model_name ++ "_ensemble.joblib"),
        SavedFile.scaler m.scaler (model_name ++ "_scaler.joblib"),
        SavedFile.tfidf m.tfidf_vectorizer (model_name ++ "_tfidf.joblib"),
        SavedFile.glove m.glove_embeddings (model_name ++ "_glove.joblib")])
  | none => (false, [])

end FastModel

namespace ConvertCoreml

/-! Embedding of `scripts/convert_to_coreml.py` (module-level helpers and
`SentimentPredictor`). -/

/-- `convert_to_coreml.preprocess_text`: identical regex pipeline to
`Fast85AccuracyModel.smart_preprocess_text`. -/
def preprocess_core (s : String) : String :=
  String.mk (pyStrip (squeeze ((pyLower s.toList).filter keepSmart)))

/-- `convert_to_coreml.preprocess_text` with the NaN guard. -/
def preprocess_text (text : Option String) : String :=
  match text with
  | none => ""
  | some s => preprocess_core s

/-- `convert_to_coreml.text_to_glove_vector` (`np.zeros(100)`, default
`max_length=40` passed explicitly here). -/
def text_to_glove_vector (glove : String → Option GVec) (text : String)
    (max_length : Nat) : GVec :=
  let words := (pySplit text).take max_length
  let acc := words.foldl
    (fun (p : GVec × Nat) word =>
      match glove word with
      | some v => (p.1 + v, p.2 + 1)
      | none => p)
    ((fun _ => 0), 0)
  if acc.2 > 0 then (fun i => acc.1 i / (acc.2 : ℚ)) else acc.1

/-- `convert_to_coreml.extract_smart_features` on a single text: the same
nine statistics as the training script, with the same lexicons. -/
def extract_smart_features (text : String) : List ℚ :=
  let words := pySplit text
  [ (text.length : ℚ),
    (words.length : ℚ),
    (pyCount text "!" : ℚ),
    (pyCount text "?" : ℚ),
    (words.countP (fun w => FastModel.positive_words.contains (strLower w)) : ℚ),
    (words.countP (fun w => FastModel.negative_words.contains (strLower w)) : ℚ),
    (pyCount text "!!" : ℚ),
    (pyCount text "??" : ℚ),
    (if words.isEmpty then 0
     else (words.map (fun w => (w.length : ℚ))).sum / (words.length : ℚ)) ]

/-- The feature assembly inside `SentimentPredictor.predict_sentiment`,
up to scaling: preprocess, GloVe vector with `max_length` 40, TF-IDF row
of the loaded fitted vectorizer, smart features,
`np.hstack([glove_vector, tfidf_features, smart_features])`. -/
def combined_features (glove : String → Option GVec) (tfidf : String → List ℚ)
    (text : Option String) : List ℚ :=
  let processed_text := preprocess_text text
  let glove_vector := text_to_glove_vector glove processed_text 40
  let tfidf_features := tfidf processed_text
  let smart_features := extract_smart_features processed_text
  List.ofFn glove_vector ++ tfidf_features ++ smart_features

end ConvertCoreml

namespace FastModel

/-- The training-side single-text feature pipeline of
fast_85_accuracy_model.py, as claim C1 frames it: `smart_preprocess_text`,
then `text_to_glove_vector` with `max_length` 40, the fitted TF-IDF
transform, and `extract_smart_features` (applied to the one-element text
list, as `prepare_smart_features` does), concatenated in that order. -/
def training_features (glove : String → Option GVec) (tfidf : String → List ℚ)
    (text : Option String) : List ℚ :=
  let p := smart_preprocess_text text
  List.ofFn (text_to_glove_vector glove p 40) ++ tfidf p ++
    (extract_smart_features [p]).flatten

end FastModel

namespace TrainCustom

/-! Embedding of `scripts/train_custom_model.py` (`class EmotionModelTrainer`). -/

/-- `EmotionModelTrainer.preprocess_text`: lowercase, remove URLs
(`http\S+|www\S+|https\S+`), remove mentions and hashtags (`@\w+|#\w+`),
collapse whitespace runs, remove characters outside `[a-zA-Z0-9\s.,!?]`,
strip.  Note the whitespace collapse happens before the character
filter. -/
def preprocess_core (s : String) : String :=
  String.mk (pyStrip ((squeeze (stripMentions (stripUrls (pyLower s.toList)))).filter
    keepTrain))

/-- `EmotionModelTrainer.preprocess_text` with the NaN guard. -/
def preprocess_text (text : Option String) : String :=
  match text with
  | none => ""
  | some s => preprocess_core s

/-- `EmotionModelTrainer.load_emotion_dataset`: map emotions to
sentiments and drop rows whose `Text` or sentiment is NaN (preprocessing
and length filtering happen later, in `prepare_training_data`). -/
def load_emotion_dataset (rows : List EmotionRow) : List (String × String) :=
  rows.filterMap (fun r =>
    match r.Emotion.bind emotion_to_sentiment, r.Text with
    | some s, some t => some (t, s)
    | _, _ => none)

/-- `EmotionModelTrainer.prepare_training_data` after the optional
sampling: preprocess each text and keep pairs whose preprocessed text is
longer than 10 characters.  (`df.sample` selects a subset of rows and is
covered by quantifying over selections in the theorems.) -/
def prepare_training_data (pairs : List (String × String)) : List (String × String) :=
  (pairs.map (fun p => (preprocess_core p.1, p.2))).filter (fun p => 10 < p.1.length)

/-- A file written by `EmotionModelTrainer.convert_to_coreml`. -/
inductive ConvertWrite where
  | modelPackage (path : String)
  | tokenizerConfig (path : String)
deriving DecidableEq

/-- Outcomes of the three fallible library calls inside the `try` block
of `convert_to_coreml`: `ct.convert`, `coreml_model.save`, and the
tokenizer-config `json.dump`.  An `error` value models the call raising
an exception. -/
structure ConvertEnv where
  convert_result : Except String Unit
  save_result : Except String Unit
  json_result : Except String Unit

/-- `EmotionModelTrainer.convert_to_coreml`, with `model` standing for
`self.model` (the trained LSTM, `None` before training).  The result is
the returned boolean, the trace of files written, and the number of
conversion attempts made.  Every exception raised inside the `try` block
is caught, printed, and turned into `return False`; nothing escapes to
the caller and nothing is retried. -/
def convert_to_coreml {M : Type} (model : Option M) (env : ConvertEnv)
    (model_name : String) : Bool × List ConvertWrite × Nat :=
  match model with
  | none => (false, [], 0)
  | some _ =>
    match env.convert_result with
    | Except.error _ => (false, [], 1)
    | Except.ok _ =>
      match env.save_result with
      | Except.error _ => (false, [], 1)
      | Except.ok _ =>
        match env.json_result with
        | Except.error _ =>
            (false, [ConvertWrite.modelPackage (model_name ++ ".mlpackage")], 1)
        | Except.ok _ =>
            (true,
             [ConvertWrite.modelPackage (model_name ++ ".mlpackage"),
              ConvertWrite.tokenizerConfig "tokenizer_config.json"], 1)

end TrainCustom

namespace AdvancedModel

/-! Embedding of `scripts/advanced_ensemble_model.py`
(`class AdvancedEnsembleModel`). -/

/-- `AdvancedEnsembleModel.advanced_preprocess_text`: lowercase, remove
URLs, remove mentions and hashtags, remove characters outside
`[a-zA-Z\s.,!?]`, collapse whitespace runs, strip. -/
def advanced_preprocess_core (s : String) : String :=
  String.mk (pyStrip (squeeze ((stripMentions (stripUrls (pyLower s.toList))).filter
    keepSmart)))

/-- `AdvancedEnsembleModel.advanced_preprocess_text` with the NaN guard. -/
def advanced_preprocess_text (text : Option String) : String :=
  match text with
  | none => ""
  | some s => advanced_preprocess_core s

/-- `AdvancedEnsembleModel.text_to_glove_vector`: like the fast model's
version, but when a word is not a key of the table the script retries
with `word.lower()` before giving up (source lines 76-80). -/
def text_to_glove_vector (glove : String → Option GVec) (text : String)
    (max_length : Nat) : GVec :=
  let words := (pySplit text).take max_length
  let acc := words.foldl
    (fun (p : GVec × Nat) word =>
      match glove word with
      | some v => (p.1 + v, p.2 + 1)
      | none =>
        match glove (strLower word) with
        | some v => (p.1 + v, p.2 + 1)
        | none => p)
    ((fun _ => 0), 0)
  if acc.2 > 0 then (fun i => acc.1 i / (acc.2 : ℚ)) else acc.1

/-- `AdvancedEnsembleModel.load_emotion_dataset` up to the deterministic
filtering, like the fast model's but with `advanced_preprocess_text`. -/
def load_emotion_dataset (rows : List EmotionRow) : List (String × String) :=
  ((rows.filterMap (fun r =>
      match r.Emotion.bind emotion_to_sentiment, r.Text with
      | some s, some t => some (advanced_preprocess_core t, s)
      | _, _ => none))).filter (fun p => 10 < p.1.length)

/-- `AdvancedEnsembleModel.save_advanced_ensemble`: identical control
flow to `save_optimized_model`, over the same four artifact fields. -/
def save_advanced_ensemble {Em Sc Tf Gl : Type} (m : FastModel.Artifacts Em Sc Tf Gl)
    (model_name : String) : Bool × List (FastModel.SavedFile Em Sc Tf Gl) :=
  match m.ensemble_model with
  | some e =>
      (true,
       [FastModel.SavedFile.ensemble e (model_name ++ "_ensemble.joblib"),
        FastModel.SavedFile.scaler m.scaler (model_name ++ "_scaler.joblib"),
        FastModel.SavedFile.tfidf m.tfidf_vectorizer (model_name ++ "_tfidf.joblib"),
        FastModel.SavedFile.glove m.glove_embeddings (model_name ++ "_glove.joblib")])
  | none => (false, [])

end AdvancedModel

/-- Embedding table fixture used by the claim-C3 counterexample: the
single word "hello" mapped to the all-ones vector. -/
def gHello : String → Option GVec :=
  fun w => if w = "hello" then some (fun _ => 1) else none

/-- The word lookup performed by the loop body of
`AdvancedEnsembleModel.text_to_glove_vector`: the word itself, then its
lowercased form. -/
def advLookup (glove : String → Option GVec) (word : String) : Option GVec :=
  match glove word with
  | some v => some v
  | none => glove (strLower word)

/-! ## Output character classes and canonical-form predicates

Vocabulary for stating the invariants of the preprocessing outputs. -/

/-- A character that can appear in the output of the fast-model /
convert-script preprocessing: a lowercase letter, a single space, or one
of `. , ! ?`. -/
def goodSmartChar (c : Char) : Bool :=
  isLowerAZ c || c == ' ' || c == '.' || c == ',' || c == '!' || c == '?'

/-- Output characters of train_custom_model.py preprocessing: the same
plus digits. -/
def goodTrainChar (c : Char) : Bool := goodSmartChar c || isDigitAZ c

/-- No two adjacent characters are both whitespace. -/
def noDoubleB : List Char → Bool
  | [] => true
  | [_] => true
  | c :: d :: ds => !(pySpace c && pySpace d) && noDoubleB (d :: ds)

/-- The first character, if any, is not whitespace. -/
def headOkB : List Char → Bool
  | [] => true
  | c :: _ => notSpace c

/-- The last character, if any, is not whitespace. -/
def lastOkB : List Char → Bool
  | [] => true
  | [c] => notSpace c
  | _ :: d :: ds => lastOkB (d :: ds)

/-! ## Character-level helper lemmas -/

lemma toNat_ofNat_valid (n : Nat) (h : n.isValidChar) : (Char.ofNat n).toNat = n := by
  simp [Char.ofNat, h, Char.ofNatAux, Char.toNat, UInt32.toNat, BitVec.toNat_ofNatLt]

lemma toNat_pyLowerChar_of_upper (c : Char) (h : 65 ≤ c.toNat ∧ c.toNat ≤ 90) :
    (pyLowerChar c).toNat = c.toNat + 32 := by
  have hv : (c.toNat + 32).isValidChar := Or.inl (by omega)
  rw [pyLowerChar, if_pos h, toNat_ofNat_valid _ hv]

lemma pyLowerChar_not_upper (c : Char) : isUpperAZ (pyLowerChar c) = false := by
  by_cases h : 65 ≤ c.toNat ∧ c.toNat ≤ 90
  · have ht := toNat_pyLowerChar_of_upper c h
    cases hu : isUpperAZ (pyLowerChar c)
    · rfl
    · exfalso
      simp only [isUpperAZ, Bool.and_eq_true, decide_eq_true_eq] at hu
      omega
  · rw [pyLowerChar, if_neg h]
    cases hu : isUpperAZ c
    · rfl
    · exfalso
      simp only [isUpperAZ, Bool.and_eq_true, decide_eq_true_eq] at hu
      exact h hu

lemma pyLowerChar_eq_self (c : Char) (h : isUpperAZ c = false) : pyLowerChar c = c := by
  rw [pyLowerChar, if_neg]
  intro hc
  have ht : isUpperAZ c = true := by
    simp only [isUpperAZ, Bool.and_eq_true, decide_eq_true_eq]
    exact hc
  rw [ht] at h
  exact absurd h (by decide)

lemma goodSmartChar_of_keep (c : Char) (hk : keepSmart c = true)
    (hu : isUpperAZ c = false) (hs : pySpace c = false) : goodSmartChar c = true := by
  simp only [keepSmart, Bool.or_eq_true, beq_iff_eq] at hk
  rcases hk with ((((((h | h) | h) | rfl) | rfl) | rfl) | rfl)
  · simp [goodSmartChar, h]
  · simp [h] at hu
  · simp [h] at hs
  all_goals decide

lemma goodTrainChar_of_keep (c : Char) (hk : keepTrain c = true)
    (hu : isUpperAZ c = false) (hs : pySpace c = false) : goodTrainChar c = true := by
  simp only [keepTrain, Bool.or_eq_true] at hk
  rcases hk with h | h
  · simp [goodTrainChar, goodSmartChar_of_keep c h hu hs]
  · simp [goodTrainChar, goodSmartChar, h]

lemma keep_of_goodSmart (c : Char) (h : goodSmartChar c = true) : keepSmart c = true := by
  simp only [goodSmartChar, Bool.or_eq_true, beq_iff_eq] at h
  rcases h with ((((h | rfl) | rfl) | rfl) | rfl) | rfl
  · simp [keepSmart, h]
  all_goals decide

lemma not_upper_of_goodSmart (c : Char) (h : goodSmartChar c = true) :
    isUpperAZ c = false := by
  simp only [goodSmartChar, Bool.or_eq_true, beq_iff_eq] at h
  rcases h with ((((h | rfl) | rfl) | rfl) | rfl) | rfl
  · simp only [isLowerAZ, Bool.and_eq_true, decide_eq_true_eq] at h
    cases hu : isUpperAZ c
    · rfl
    · exfalso
      simp only [isUpperAZ, Bool.and_eq_true, decide_eq_true_eq] at hu
      omega
  all_goals decide

lemma space_eq_of_goodSmart (c : Char) (hg : goodSmartChar c = true)
    (hs : pySpace c = true) : c = ' ' := by
  simp only [pySpace, Bool.or_eq_true, beq_iff_eq] at hs
  rcases hs with ((((rfl | rfl) | rfl) | rfl) | rfl) | rfl
  · rfl
  all_goals exact absurd hg (by decide)

/-! ## List-level helper lemmas about the regex primitives -/

lemma mem_of_mem_dropWhileP {α : Type} {p : α → Bool} {a : α} {l : List α}
    (h : a ∈ l.dropWhile p) : a ∈ l :=
  (List.dropWhile_sublist p).subset h

lemma mem_pyLower {c : Char} {l : List Char} (h : c ∈ pyLower l) :
    isUpperAZ c = false := by
  rcases List.mem_map.mp h with ⟨d, _, rfl⟩
  exact pyLowerChar_not_upper d

lemma mem_stripUrlsF {a : Char} : ∀ (n : Nat) (l : List Char), a ∈ stripUrlsF n l → a ∈ l
  | 0, l, h => h
  | _ + 1, [], h => h
  | n + 1, c :: cs, h => by
    rw [stripUrlsF] at h
    split at h
    · exact List.mem_cons_of_mem c (mem_of_mem_dropWhileP (mem_stripUrlsF n _ h))
    · rcases List.mem_cons.mp h with rfl | h
      · exact List.mem_cons_self a cs
      · exact List.mem_cons_of_mem c (mem_stripUrlsF n cs h)

lemma mem_stripMentionsF {a : Char} : ∀ (n : Nat) (l : List Char),
    a ∈ stripMentionsF n l → a ∈ l
  | 0, l, h => h
  | _ + 1, [], h => h
  | n + 1, c :: cs, h => by
    rw [stripMentionsF] at h
    split at h
    · exact List.mem_cons_of_mem c (mem_of_mem_dropWhileP (mem_stripMentionsF n _ h))
    · rcases List.mem_cons.mp h with rfl | h
      · exact List.mem_cons_self a cs
      · exact List.mem_cons_of_mem c (mem_stripMentionsF n cs h)

lemma mem_stripUrls {a : Char} {l : List Char} (h : a ∈ stripUrls l) : a ∈ l :=
  mem_stripUrlsF _ _ h

lemma mem_stripMentions {a : Char} {l : List Char} (h : a ∈ stripMentions l) : a ∈ l :=
  mem_stripMentionsF _ _ h

lemma mem_squeezeAux {a : Char} : ∀ (l : List Char) (b : Bool), a ∈ squeezeAux b l →
    a = ' ' ∨ (a ∈ l ∧ pySpace a = false)
  | [], _, h => absurd h (List.not_mem_nil a)
  | c :: cs, b, h => by
    rw [squeezeAux] at h
    split at h
    · split at h
      · rcases mem_squeezeAux cs true h with h' | ⟨h1, h2⟩
        · exact Or.inl h'
        · exact Or.inr ⟨List.mem_cons_of_mem c h1, h2⟩
      · rcases List.mem_cons.mp h with rfl | h
        · exact Or.inl rfl
        · rcases mem_squeezeAux cs true h with h' | ⟨h1, h2⟩
          · exact Or.inl h'
          · exact Or.inr ⟨List.mem_cons_of_mem c h1, h2⟩
    · rcases List.mem_cons.mp h with rfl | h
      · rename_i hc
        exact Or.inr ⟨List.mem_cons_self a cs, by simpa using hc⟩
      · rcases mem_squeezeAux cs false h with h' | ⟨h1, h2⟩
        · exact Or.inl h'
        · exact Or.inr ⟨List.mem_cons_of_mem c h1, h2⟩

lemma mem_dropEndSpace {a : Char} : ∀ (l : List Char), a ∈ dropEndSpace l → a ∈ l
  | [], h => h
  | c :: cs, h => by
    rw [dropEndSpace] at h
    split at h
    · split at h
      · exact absurd h (List.not_mem_nil a)
      · rcases List.mem_cons.mp h with rfl | h
        · exact List.mem_cons_self a cs
        · exact absurd h (List.not_mem_nil a)
    · rename_i d ds heq
      rcases List.mem_cons.mp h with rfl | h
      · exact List.mem_cons_self a cs
      · exact List.mem_cons_of_mem c (mem_dropEndSpace cs (heq ▸ h))

lemma mem_pyStrip {a : Char} {l : List Char} (h : a ∈ pyStrip l) : a ∈ l :=
  mem_of_mem_dropWhileP (mem_dropEndSpace _ h)

/-! ## Invariants of `squeeze` and `pyStrip` -/

lemma headOkB_squeezeAux_true : ∀ (l : List Char), headOkB (squeezeAux true l) = true
  | [] => rfl
  | c :: cs => by
    rw [squeezeAux]
    split
    · exact headOkB_squeezeAux_true cs
    · rename_i hc
      simp [headOkB, notSpace, hc]

lemma noDoubleB_cons_iff (c : Char) (l : List Char) :
    noDoubleB (c :: l) = true ↔
      ((pySpace c = true → headOkB l = true) ∧ noDoubleB l = true) := by
  cases l with
  | nil => simp [noDoubleB, headOkB]
  | cons d ds =>
    cases hc : pySpace c <;> cases hd : pySpace d <;>
      simp [noDoubleB, headOkB, notSpace, hc, hd]

lemma noDoubleB_tail (c : Char) (l : List Char) (h : noDoubleB (c :: l) = true) :
    noDoubleB l = true := ((noDoubleB_cons_iff c l).mp h).2

lemma noDoubleB_squeezeAux : ∀ (l : List Char) (b : Bool),
    noDoubleB (squeezeAux b l) = true
  | [], _ => rfl
  | c :: cs, b => by
    rw [squeezeAux]
    split
    · split
      · exact noDoubleB_squeezeAux cs true
      · refine (noDoubleB_cons_iff _ _).mpr ⟨fun _ => ?_, noDoubleB_squeezeAux cs true⟩
        exact headOkB_squeezeAux_true cs
    · rename_i hc
      refine (noDoubleB_cons_iff _ _).mpr ⟨fun hsp => absurd hsp (by simp [hc]), ?_⟩
      exact noDoubleB_squeezeAux cs false

lemma noDoubleB_dropWhile (p : Char → Bool) :
    ∀ (l : List Char), noDoubleB l = true → noDoubleB (l.dropWhile p) = true
  | [], h => h
  | c :: cs, h => by
    rw [List.dropWhile_cons]
    split
    · exact noDoubleB_dropWhile p cs (noDoubleB_tail c cs h)
    · exact h

lemma headOkB_dropWhile : ∀ (l : List Char), headOkB (l.dropWhile pySpace) = true
  | [] => rfl
  | c :: cs => by
    rw [List.dropWhile_cons]
    split
    · exact headOkB_dropWhile cs
    · rename_i hc
      simp [headOkB, notSpace]
      simpa using hc

lemma dropEndSpace_head : ∀ (l : List Char) (d : Char) (ds : List Char),
    dropEndSpace l = d :: ds → ∃ es, l = d :: es
  | [], d, ds, h => by simp [dropEndSpace] at h
  | c :: cs, d, ds, h => by
    rw [dropEndSpace] at h
    split at h
    · split at h
      · exact absurd h (by simp)
      · rcases List.cons.injEq .. ▸ h with ⟨rfl, _⟩
        exact ⟨cs, rfl⟩
    · rcases List.cons.injEq .. ▸ h with ⟨rfl, _⟩
      exact ⟨cs, rfl⟩

lemma noDoubleB_dropEndSpace : ∀ (l : List Char), noDoubleB l = true →
    noDoubleB (dropEndSpace l) = true
  | [], h => h
  | c :: cs, h => by
    rw [dropEndSpace]
    split
    · split
      · rfl
      · rfl
    · rename_i d ds heq
      have hcs := noDoubleB_dropEndSpace cs (noDoubleB_tail c cs h)
      rw [heq] at hcs
      refine (noDoubleB_cons_iff _ _).mpr ⟨fun hsp => ?_, hcs⟩
      rcases dropEndSpace_head cs d ds heq with ⟨es, rfl⟩
      have := ((noDoubleB_cons_iff c (d :: es)).mp h).1 hsp
      simpa [headOkB] using this

lemma headOkB_dropEndSpace (l : List Char) (h : headOkB l = true) :
    headOkB (dropEndSpace l) = true := by
  cases l with
  | nil => rfl
  | cons c cs =>
    rw [dropEndSpace]
    split
    · split
      · rfl
      · exact h
    · exact h

lemma lastOkB_dropEndSpace : ∀ (l : List Char), lastOkB (dropEndSpace l) = true
  | [] => rfl
  | c :: cs => by
    rw [dropEndSpace]
    split
    · rename_i heq
      split
      · rfl
      · rename_i hc
        simp [lastOkB, notSpace, hc]
    · rename_i d ds heq
      have := lastOkB_dropEndSpace cs
      rw [heq] at this
      simpa [lastOkB] using this

/-! ## Fixed points of the pipeline stages on canonical strings -/

lemma map_id_of_mem {α : Type} (l : List α) (f : α → α) (h : ∀ c ∈ l, f c = c) :
    l.map f = l := by
  induction l with
  | nil => rfl
  | cons a l ih =>
    rw [List.map_cons, h a (List.mem_cons_self a l), ih (fun c hc => h c (List.mem_cons_of_mem a hc))]

lemma squeezeAux_id : ∀ (l : List Char),
    (∀ c ∈ l, pySpace c = true → c = ' ') → noDoubleB l = true →
      squeezeAux false l = l
  | [], _, _ => rfl
  | c :: cs, hsp, hnd => by
    by_cases hc : pySpace c = true
    · have hc' : c = ' ' := hsp c (List.mem_cons_self c cs) hc
      have hhead : headOkB cs = true := ((noDoubleB_cons_iff c cs).mp hnd).1 hc
      have htail :=
        squeezeAux_id cs (fun d hd => hsp d (List.mem_cons_of_mem c hd)) (noDoubleB_tail c cs hnd)
      have hstep : squeezeAux false (c :: cs) = ' ' :: squeezeAux true cs := by
        simp [squeezeAux, hc]
      rw [hstep, hc']
      congr 1
      cases cs with
      | nil => rfl
      | cons d ds =>
        have hd : pySpace d = false := by
          simpa [headOkB, notSpace] using hhead
        have h1 : squeezeAux true (d :: ds) = d :: squeezeAux false ds := by
          simp [squeezeAux, hd]
        have h2 : squeezeAux false (d :: ds) = d :: squeezeAux false ds := by
          simp [squeezeAux, hd]
        rw [h1, ← h2, htail]
    · have hstep : squeezeAux false (c :: cs) = c :: squeezeAux false cs := by
        simp [squeezeAux, hc]
      rw [hstep,
        squeezeAux_id cs (fun d hd => hsp d (List.mem_cons_of_mem c hd)) (noDoubleB_tail c cs hnd)]

lemma dropWhile_id_of_headOk (l : List Char) (h : headOkB l = true) :
    l.dropWhile pySpace = l := by
  cases l with
  | nil => rfl
  | cons c cs =>
    rw [List.dropWhile_cons]
    have hc : pySpace c = false := by simpa [headOkB, notSpace] using h
    simp [hc]

lemma dropEndSpace_id : ∀ (l : List Char), lastOkB l = true → dropEndSpace l = l
  | [], _ => rfl
  | c :: cs, h => by
    rw [dropEndSpace]
    cases cs with
    | nil =>
      have hc : pySpace c = false := by simpa [lastOkB, notSpace] using h
      simp [dropEndSpace, hc]
    | cons d ds =>
      have htail : dropEndSpace (d :: ds) = d :: ds :=
        dropEndSpace_id (d :: ds) (by simpa [lastOkB] using h)
      rw [htail]

lemma pyStrip_id (l : List Char) (h1 : headOkB l = true) (h2 : lastOkB l = true) :
    pyStrip l = l := by
  rw [pyStrip, dropWhile_id_of_headOk l h1, dropEndSpace_id l h2]

/-! ## Canonical form of the fast-model / convert-script preprocessing -/

lemma toList_mk (l : List Char) : (String.mk l).toList = l := rfl

lemma smart_core_chars (s : String) :
    ∀ c ∈ (FastModel.smart_preprocess_core s).toList, goodSmartChar c = true := by
  intro c hc
  rw [FastModel.smart_preprocess_core, toList_mk] at hc
  have hq := mem_pyStrip hc
  rcases mem_squeezeAux _ false hq with rfl | ⟨hm, hns⟩
  · decide
  · have hk := (List.mem_filter.mp hm).2
    have hu := mem_pyLower (List.mem_filter.mp hm).1
    exact goodSmartChar_of_keep c hk hu hns

lemma smart_core_noDouble (s : String) :
    noDoubleB (FastModel.smart_preprocess_core s).toList = true := by
  rw [FastModel.smart_preprocess_core, toList_mk, pyStrip]
  exact noDoubleB_dropEndSpace _ (noDoubleB_dropWhile _ _ (noDoubleB_squeezeAux _ false))

lemma smart_core_headOk (s : String) :
    headOkB (FastModel.smart_preprocess_core s).toList = true := by
  rw [FastModel.smart_preprocess_core, toList_mk, pyStrip]
  exact headOkB_dropEndSpace _ (headOkB_dropWhile _)

lemma smart_core_lastOk (s : String) :
    lastOkB (FastModel.smart_preprocess_core s).toList = true := by
  rw [FastModel.smart_preprocess_core, toList_mk, pyStrip]
  exact lastOkB_dropEndSpace _

lemma mk_toList (s : String) : String.mk s.toList = s := rfl

lemma smart_core_idem (s : String) :
    FastModel.smart_preprocess_core (FastModel.smart_preprocess_core s) =
      FastModel.smart_preprocess_core s := by
  set r := FastModel.smart_preprocess_core s with hr
  have hchars := smart_core_chars s
  rw [← hr] at hchars
  have hlow : pyLower r.toList = r.toList :=
    map_id_of_mem _ _ (fun c hc => pyLowerChar_eq_self c (not_upper_of_goodSmart c (hchars c hc)))
  have hfil : r.toList.filter keepSmart = r.toList :=
    List.filter_eq_self.mpr (fun c hc => keep_of_goodSmart c (hchars c hc))
  have hsq : squeezeAux false r.toList = r.toList := by
    refine squeezeAux_id r.toList (fun c hc hsp => space_eq_of_goodSmart c (hchars c hc) hsp) ?_
    rw [hr]; exact smart_core_noDouble s
  have hst : pyStrip r.toList = r.toList := by
    refine pyStrip_id r.toList ?_ ?_
    · rw [hr]; exact smart_core_headOk s
    · rw [hr]; exact smart_core_lastOk s
  calc FastModel.smart_preprocess_core r
      = String.mk (pyStrip (squeeze ((pyLower r.toList).filter keepSmart))) := rfl
    _ = String.mk (pyStrip (squeeze (r.toList.filter keepSmart))) := by rw [hlow]
    _ = String.mk (pyStrip (squeeze r.toList)) := by rw [hfil]
    _ = String.mk (pyStrip r.toList) := by rw [squeeze, hsq]
    _ = String.mk r.toList := by rw [hst]
    _ = r := mk_toList r

/-! ## Output character classes of the other two preprocessing pipelines -/

lemma train_core_chars (s : String) :
    ∀ c ∈ (TrainCustom.preprocess_core s).toList, goodTrainChar c = true := by
  intro c hc
  rw [TrainCustom.preprocess_core, toList_mk] at hc
  have h1 := mem_pyStrip hc
  have hk := (List.mem_filter.mp h1).2
  rcases mem_squeezeAux _ false (List.mem_filter.mp h1).1 with rfl | ⟨hm, hns⟩
  · decide
  · have hu := mem_pyLower (mem_stripUrls (mem_stripMentions hm))
    exact goodTrainChar_of_keep c hk hu hns

lemma advanced_core_chars (s : String) :
    ∀ c ∈ (AdvancedModel.advanced_preprocess_core s).toList, goodSmartChar c = true := by
  intro c hc
  rw [AdvancedModel.advanced_preprocess_core, toList_mk] at hc
  have hq := mem_pyStrip hc
  rcases mem_squeezeAux _ false hq with rfl | ⟨hm, hns⟩
  · decide
  · have hk := (List.mem_filter.mp hm).2
    have hu := mem_pyLower (mem_stripUrls (mem_stripMentions (List.mem_filter.mp hm).1))
    exact goodSmartChar_of_keep c hk hu hns

/-! ## The GloVe averaging loop -/

lemma glove_foldl (look : String → Option GVec) :
    ∀ (ws : List String) (v0 : GVec) (n0 : Nat),
      ws.foldl
        (fun (p : GVec × Nat) word =>
          match look word with
          | some v => (p.1 + v, p.2 + 1)
          | none => p)
        (v0, n0)
      = (v0 + (ws.filterMap look).sum, n0 + (ws.filterMap look).length)
  | [], v0, n0 => by simp
  | w :: ws, v0, n0 => by
    rw [List.foldl_cons, List.filterMap_cons]
    cases h : look w with
    | none =>
      simp only [h]
      rw [glove_foldl look ws v0 n0]
    | some v =>
      simp only [h]
      rw [glove_foldl look ws (v0 + v) (n0 + 1), List.sum_cons, List.length_cons]
      simp only [Prod.mk.injEq]
      constructor
      · rw [add_assoc]
      · omega

lemma gvec_sum_apply (es : List GVec) (i : Fin 100) :
    es.sum i = (es.map (fun g => g i)).sum := by
  induction es with
  | nil => rfl
  | cons e es ih => simp [ih]

lemma adv_step_eq (glove : String → Option GVec) :
    (fun (p : GVec × Nat) word =>
      match glove word with
      | some v => (p.1 + v, p.2 + 1)
      | none =>
        match glove (strLower word) with
        | some v => (p.1 + v, p.2 + 1)
        | none => p)
    = fun (p : GVec × Nat) word =>
        match advLookup glove word with
        | some v => (p.1 + v, p.2 + 1)
        | none => p := by
  funext p w
  cases h : glove w <;> simp [advLookup, h]

/-! ## Feature-matrix helpers -/

lemma zipWith_append_map {α : Type} (l : List α) (f g : α → List ℚ) :
    List.zipWith (fun x y => x ++ y) (l.map f) (l.map g) =
      l.map (fun x => f x ++ g x) := by
  induction l with
  | nil => rfl
  | cons a l ih => simp [ih]

lemma prepare_fitted_eq_map (glove : String → Option GVec)
    (fit : List String → String → List ℚ) (v : String → List ℚ)
    (s : FastModel.FastState) (h : s.tfidf_vectorizer = some v)
    (texts : List String) :
    FastModel.prepare_smart_features glove fit s texts =
      (texts.map (fun t =>
        List.ofFn (FastModel.text_to_glove_vector glove t 40) ++ v t ++
          FastModel.smartRow t), s) := by
  simp only [FastModel.prepare_smart_features, h, FastModel.extract_smart_features, hstack3,
    zipWith_append_map, List.append_assoc]

lemma emotion_to_sentiment_cases (e s : String) (h : emotion_to_sentiment e = some s) :
    s = "positive" ∨ s = "negative" ∨ s = "neutral" := by
  rw [emotion_to_sentiment] at h
  split_ifs at h <;> simp_all

/-! ## Claim theorems -/

/-- Claim C1: for every GloVe embedding table, fitted TF-IDF transform
and input text, the inference-side feature pipeline of
convert_to_coreml.py (preprocess, GloVe average with max_length 40,
TF-IDF transform, smart features, concatenated in that order) produces
exactly the combined feature vector of the training-side pipeline of
fast_85_accuracy_model.py on the same text. -/
theorem c1_training_inference_feature_equivalence
    (glove : String → Option GVec) (tfidf : String → List ℚ) (text : Option String) :
    ConvertCoreml.combined_features glove tfidf text =
      FastModel.training_features glove tfidf text := by
  cases text with
  | none => rfl
  | some s => rfl

/-- Claim C2 counterexample: `smart_preprocess_text` of
fast_85_accuracy_model.py does not strip URLs or mentions, only their
punctuation: on "Visit http://spam.com now @alice" the URL substring
"spam.com" and the mention word "alice" both survive in the returned
string. -/
theorem c2_counterexample_url_survives :
    FastModel.smart_preprocess_text (some "Visit http://spam.com now @alice") =
      "visit http" ++ "spam.com" ++ " now " ++ "alice" := by decide

/-- Claim C2 amended: preprocess_text of train_custom_model.py and
advanced_preprocess_text of advanced_ensemble_model.py lowercase the
text and strip URLs, mentions/hashtags and special characters (every
output character is a lowercase letter, a digit for the former script,
a space, or one of `.,!?`, and on a text carrying a URL and a mention
both return "visit now"); smart_preprocess_text of
fast_85_accuracy_model.py lowercases and strips special characters
only, so the alphanumeric residue of a URL or a mention survives it. -/
theorem c2_amended_preprocessing_strips :
    (∀ t : String, (TrainCustom.preprocess_core t).toList.all goodTrainChar = true) ∧
    (∀ t : String,
      (AdvancedModel.advanced_preprocess_core t).toList.all goodSmartChar = true) ∧
    (∀ t : String, (FastModel.smart_preprocess_core t).toList.all goodSmartChar = true) ∧
    TrainCustom.preprocess_text (some "Visit http://spam.com now @alice") = "visit now" ∧
    AdvancedModel.advanced_preprocess_text (some "Visit http://spam.com now @alice") =
      "visit now" ∧
    FastModel.smart_preprocess_text (some "Visit http://spam.com now @alice") =
      "visit httpspam.com now alice" := by
  refine ⟨?_, ?_, ?_, by decide, by decide, by decide⟩
  · intro t
    exact List.all_eq_true.mpr (train_core_chars t)
  · intro t
    exact List.all_eq_true.mpr (advanced_core_chars t)
  · intro t
    exact List.all_eq_true.mpr (smart_core_chars t)

/-- Claim C3 counterexample: the advanced_ensemble_model.py variant of
text_to_glove_vector falls back to the lowercased word, so on the text
"Hello" and a table whose only key is "hello" it returns the all-ones
vector although no word of the text occurs as a key of the table (the
claim prescribes the zero vector there, which is what the
fast_85_accuracy_model.py variant indeed returns). -/
theorem c3_counterexample_advanced_fallback :
    ((pySplit "Hello").take 50).filterMap gHello = [] ∧
    AdvancedModel.text_to_glove_vector gHello "Hello" 50 (0 : Fin 100) = 1 ∧
    FastModel.text_to_glove_vector gHello "Hello" 50 (0 : Fin 100) = 0 := by
  have h0 : ((pySplit "Hello").take 50).filterMap gHello = [] := rfl
  have h1 : ((pySplit "Hello").take 50).filterMap (advLookup gHello) =
      [fun _ => (1 : ℚ)] := rfl
  refine ⟨h0, ?_, ?_⟩
  · simp only [AdvancedModel.text_to_glove_vector, adv_step_eq gHello, glove_foldl, h1]
    norm_num
  · simp only [FastModel.text_to_glove_vector, glove_foldl, h0]
    norm_num

/-- Claim C3 amended: text_to_glove_vector of fast_85_accuracy_model.py
and of convert_to_coreml.py returns the arithmetic mean of the embedding
vectors of those words among the first max_length whitespace-separated
words that occur as keys of the table, the zero vector when none does,
dividing only by a positive count; the advanced_ensemble_model.py
variant does the same but looks each word up first as is and then
lowercased. -/
theorem c3_amended_glove_average :
    (∀ (glove : String → Option GVec) (t : String) (L : Nat),
      FastModel.text_to_glove_vector glove t L =
        (let es := ((pySplit t).take L).filterMap glove
         if es.length = 0 then (fun _ => (0 : ℚ))
         else fun i => (es.map (fun g => g i)).sum / (es.length : ℚ))) ∧
    (∀ (glove : String → Option GVec) (t : String) (L : Nat),
      ConvertCoreml.text_to_glove_vector glove t L =
        (let es := ((pySplit t).take L).filterMap glove
         if es.length = 0 then (fun _ => (0 : ℚ))
         else fun i => (es.map (fun g => g i)).sum / (es.length : ℚ))) ∧
    (∀ (glove : String → Option GVec) (t : String) (L : Nat),
      AdvancedModel.text_to_glove_vector glove t L =
        (let es := ((pySplit t).take L).filterMap (advLookup glove)
         if es.length = 0 then (fun _ => (0 : ℚ))
         else fun i => (es.map (fun g => g i)).sum / (es.length : ℚ))) := by
  have core : ∀ (look : String → Option GVec) (ws : List String),
      (if (ws.foldl
            (fun (p : GVec × Nat) word =>
              match look word with
              | some v => (p.1 + v, p.2 + 1)
              | none => p) ((fun _ => 0), 0)).2 > 0
       then (fun i => (ws.foldl
            (fun (p : GVec × Nat) word =>
              match look word with
              | some v => (p.1 + v, p.2 + 1)
              | none => p) ((fun _ => 0), 0)).1 i /
          (((ws.foldl
            (fun (p : GVec × Nat) word =>
              match look word with
              | some v => (p.1 + v, p.2 + 1)
              | none => p) ((fun _ => 0), 0)).2 : Nat) : ℚ))
       else (ws.foldl
            (fun (p : GVec × Nat) word =>
              match look word with
              | some v => (p.1 + v, p.2 + 1)
              | none => p) ((fun _ => 0), 0)).1)
      = (if (ws.filterMap look).length = 0 then (fun _ => (0 : ℚ))
         else fun i => ((ws.filterMap look).map (fun g => g i)).sum /
            ((ws.filterMap look).length : ℚ)) := by
    intro look ws
    rw [glove_foldl look ws]
    by_cases h : (ws.filterMap look).length = 0
    · have hnil : ws.filterMap look = [] := List.length_eq_zero.mp h
      simp [h, hnil]
    · rw [if_pos (by simpa using Nat.pos_of_ne_zero h), if_neg h]
      funext i
      simp [gvec_sum_apply]
  refine ⟨?_, ?_, ?_⟩
  · intro glove t L
    simpa using core glove ((pySplit t).take L)
  · intro glove t L
    simpa using core glove ((pySplit t).take L)
  · intro glove t L
    simp only [AdvancedModel.text_to_glove_vector, adv_step_eq glove]
    simpa using core (advLookup glove) ((pySplit t).take L)

/-- Claim C4 counterexample: preprocess_text of train_custom_model.py is
not idempotent: the special-character filter runs after the whitespace
collapse, so "a & b" maps to "a  b" (double space), which a second
application maps to "a b". -/
theorem c4_counterexample_train_not_idempotent :
    (TrainCustom.preprocess_text (some (TrainCustom.preprocess_text (some "a & b"))) ==
      TrainCustom.preprocess_text (some "a & b")) = false := by decide

/-- Claim C4 amended: smart_preprocess_text of fast_85_accuracy_model.py
is idempotent on every input, while preprocess_text of
train_custom_model.py is not: on "a & b" one application yields "a  b"
and a second application yields "a b". -/
theorem c4_amended_idempotence :
    (∀ t : Option String,
      FastModel.smart_preprocess_text (some (FastModel.smart_preprocess_text t)) =
        FastModel.smart_preprocess_text t) ∧
    TrainCustom.preprocess_text (some "a & b") = "a  b" ∧
    TrainCustom.preprocess_text (some "a  b") = "a b" := by
  refine ⟨?_, by decide, by decide⟩
  intro t
  cases t with
  | none => rfl
  | some s => exact smart_core_idem s

/-- Claim C10: for every input, including the NaN one which yields the
empty string, the output of preprocess_text of convert_to_coreml.py
(and of the identical smart_preprocess_text of
fast_85_accuracy_model.py) contains only lowercase letters, single
spaces and the punctuation `. , ! ?`, with no two adjacent whitespace
characters and no leading or trailing whitespace. -/
theorem c10_preprocess_output_canonical :
    ∀ t : Option String,
      (ConvertCoreml.preprocess_text t).toList.all goodSmartChar = true ∧
      noDoubleB (ConvertCoreml.preprocess_text t).toList = true ∧
      headOkB (ConvertCoreml.preprocess_text t).toList = true ∧
      lastOkB (ConvertCoreml.preprocess_text t).toList = true ∧
      ConvertCoreml.preprocess_text none = "" ∧
      ConvertCoreml.preprocess_text t = FastModel.smart_preprocess_text t := by
  intro t
  cases t with
  | none => exact ⟨rfl, rfl, rfl, rfl, rfl, rfl⟩
  | some s =>
    refine ⟨?_, ?_, ?_, ?_, rfl, rfl⟩
    · exact List.all_eq_true.mpr (smart_core_chars s)
    · exact smart_core_noDouble s
    · exact smart_core_headOk s
    · exact smart_core_lastOk s

/-- Claim C5: with a fitted TF-IDF vectorizer in place, the feature
pipeline of fast_85_accuracy_model.py is deterministic and stateless:
`prepare_smart_features` leaves the object state unchanged, a call on
one text list does not change the result of a later call on another,
and the result is the fixed function of the text, the embedding table
and the fitted transform alone. -/
theorem c5_pipeline_deterministic_stateless (glove : String → Option GVec)
    (fit : List String → String → List ℚ) (v : String → List ℚ)
    (s : FastModel.FastState) (texts1 texts2 : List String)
    (h : s.tfidf_vectorizer = some v) :
    (FastModel.prepare_smart_features glove fit s texts1).2 = s ∧
    (FastModel.prepare_smart_features glove fit
        (FastModel.prepare_smart_features glove fit s texts1).2 texts2).1 =
      (FastModel.prepare_smart_features glove fit s texts2).1 ∧
    (FastModel.prepare_smart_features glove fit s texts1).1 =
      texts1.map (fun t =>
        List.ofFn (FastModel.text_to_glove_vector glove t 40) ++ v t ++
          FastModel.smartRow t) := by
  have e1 := prepare_fitted_eq_map glove fit v s h texts1
  refine ⟨?_, ?_, ?_⟩
  · rw [e1]
  · rw [e1]
  · rw [e1]

/-- Witness for claim C5 at a concrete fitted state and text list. -/
theorem c5_witness :
    (FastModel.prepare_smart_features (fun _ => none) (fun _ _ => [])
        ⟨some (fun _ => [])⟩ ["hi"]).2 = (⟨some (fun _ => [])⟩ : FastModel.FastState) ∧
    (FastModel.prepare_smart_features (fun _ => none) (fun _ _ => [])
        ⟨some (fun _ => [])⟩ ["hi"]).1 =
      ["hi"].map (fun t =>
        List.ofFn (FastModel.text_to_glove_vector (fun _ => none) t 40) ++
          (fun _ => ([] : List ℚ)) t ++ FastModel.smartRow t) :=
  have h := c5_pipeline_deterministic_stateless (fun _ => none) (fun _ _ => [])
    (fun _ => []) ⟨some (fun _ => [])⟩ ["hi"] ["ok"] rfl
  ⟨h.1, h.2.2⟩

/-- Claim C6: for a non-empty list of n texts and a fitted vectorizer of
T features, extract_smart_features of fast_85_accuracy_model.py is an
n-by-9 matrix whose row i holds the nine statistics of text i, and
prepare_smart_features is an n-by-(100+T+9) matrix whose row i is the
GloVe block, the TF-IDF block and the smart block of text i, in that
order. -/
theorem c6_feature_matrix_shape (glove : String → Option GVec)
    (fit : List String → String → List ℚ) (v : String → List ℚ) (T : Nat)
    (s : FastModel.FastState) (texts : List String) (_hne : texts ≠ [])
    (hfit : s.tfidf_vectorizer = some v) (hT : ∀ t, (v t).length = T) :
    (FastModel.extract_smart_features texts).length = texts.length ∧
    (∀ r ∈ FastModel.extract_smart_features texts, r.length = 9) ∧
    (∀ i (hi : i < texts.length),
      (FastModel.extract_smart_features texts)[i]? =
        some (FastModel.smartRow (texts.get ⟨i, hi⟩))) ∧
    ((FastModel.prepare_smart_features glove fit s texts).1).length = texts.length ∧
    (∀ i (hi : i < texts.length),
      ((FastModel.prepare_smart_features glove fit s texts).1)[i]? =
        some (List.ofFn (FastModel.text_to_glove_vector glove (texts.get ⟨i, hi⟩) 40) ++
          v (texts.get ⟨i, hi⟩) ++ FastModel.smartRow (texts.get ⟨i, hi⟩))) ∧
    (∀ r ∈ (FastModel.prepare_smart_features glove fit s texts).1,
      r.length = 100 + T + 9) := by
  have e := prepare_fitted_eq_map glove fit v s hfit texts
  refine ⟨?_, ?_, ?_, ?_, ?_, ?_⟩
  · exact List.length_map texts FastModel.smartRow
  · intro r hr
    rcases List.mem_map.mp hr with ⟨t, _, rfl⟩
    simp [FastModel.smartRow]
  · intro i hi
    rw [FastModel.extract_smart_features, List.getElem?_map,
      List.getElem?_eq_getElem hi]
    simp only [Option.map_some', List.get_eq_getElem]
  · rw [e]
    exact List.length_map texts _
  · intro i hi
    rw [e]
    simp only [List.getElem?_map, List.getElem?_eq_getElem hi, Option.map_some',
      List.get_eq_getElem]
  · intro r hr
    rw [e] at hr
    rcases List.mem_map.mp hr with ⟨t, _, rfl⟩
    have h9 : (FastModel.smartRow t).length = 9 := rfl
    simp only [List.length_append, List.length_ofFn, hT, h9]

/-- Witness for claim C6 at a concrete text list and fitted transform. -/
theorem c6_witness :
    (FastModel.extract_smart_features ["hi"]).length = 1 ∧
    ((FastModel.prepare_smart_features (fun _ => none) (fun _ _ => [])
        ⟨some (fun _ => [])⟩ ["hi"]).1)[0]? =
      some (List.ofFn (FastModel.text_to_glove_vector (fun _ => none) "hi" 40) ++
        [] ++ FastModel.smartRow "hi") :=
  have h := c6_feature_matrix_shape (fun _ => none) (fun _ _ => []) (fun _ => []) 0
    ⟨some (fun _ => [])⟩ ["hi"] (by simp) rfl (fun _ => rfl)
  ⟨h.1, h.2.2.2.2.1 0 (by simp)⟩

/-- Claim C7: save_optimized_model of fast_85_accuracy_model.py (and
save_advanced_ensemble of advanced_ensemble_model.py) writes exactly
the ensemble, scaler, TF-IDF vectorizer and GloVe subset to the four
joblib files and returns True when an ensemble exists; when
ensemble_model is None it returns False and writes nothing. -/
theorem c7_save_four_artifacts {Em Sc Tf Gl : Type}
    (m : FastModel.Artifacts Em Sc Tf Gl) (name : String) :
    ((FastModel.save_optimized_model m name).1 = true ↔
      m.ensemble_model.isSome = true) ∧
    (∀ e, m.ensemble_model = some e →
      FastModel.save_optimized_model m name =
        (true,
         [FastModel.SavedFile.ensemble e (name ++ "_ensemble.joblib"),
          FastModel.SavedFile.scaler m.scaler (name ++ "_scaler.joblib"),
          FastModel.SavedFile.tfidf m.tfidf_vectorizer (name ++ "_tfidf.joblib"),
          FastModel.SavedFile.glove m.glove_embeddings (name ++ "_glove.joblib")])) ∧
    (m.ensemble_model = none →
      FastModel.save_optimized_model m name = (false, [])) ∧
    ((AdvancedModel.save_advanced_ensemble m name).1 = true ↔
      m.ensemble_model.isSome = true) ∧
    (∀ e, m.ensemble_model = some e →
      AdvancedModel.save_advanced_ensemble m name =
        (true,
         [FastModel.SavedFile.ensemble e (name ++ "_ensemble.joblib"),
          FastModel.SavedFile.scaler m.scaler (name ++ "_scaler.joblib"),
          FastModel.SavedFile.tfidf m.tfidf_vectorizer (name ++ "_tfidf.joblib"),
          FastModel.SavedFile.glove m.glove_embeddings (name ++ "_glove.joblib")])) ∧
    (m.ensemble_model = none →
      AdvancedModel.save_advanced_ensemble m name = (false, [])) := by
  cases h : m.ensemble_model <;>
    simp [FastModel.save_optimized_model, AdvancedModel.save_advanced_ensemble, h]

/-- Witness for claim C7 at concrete artifacts. -/
theorem c7_witness :
    FastModel.save_optimized_model
        (⟨some (), (), (), ()⟩ : FastModel.Artifacts Unit Unit Unit Unit)
        "Fast85AccuracyModel" =
      (true,
       [FastModel.SavedFile.ensemble () "Fast85AccuracyModel_ensemble.joblib",
        FastModel.SavedFile.scaler () "Fast85AccuracyModel_scaler.joblib",
        FastModel.SavedFile.tfidf () "Fast85AccuracyModel_tfidf.joblib",
        FastModel.SavedFile.glove () "Fast85AccuracyModel_glove.joblib"]) :=
  (c7_save_four_artifacts ⟨some (), (), (), ()⟩ "Fast85AccuracyModel").2.1 () rfl

/-- Claim C8: convert_to_coreml of train_custom_model.py returns True
exactly when both the model package and the tokenizer config were
written; it returns False (after printing) when no LSTM model exists or
when the conversion, the save or the config dump raises; it attempts at
most one conversion and never re-raises (the embedding is a total
function returning a boolean). -/
theorem c8_convert_error_handling {M : Type} (model : Option M)
    (env : TrainCustom.ConvertEnv) (name : String) :
    ((TrainCustom.convert_to_coreml model env name).1 = true ↔
      ((∃ p, TrainCustom.ConvertWrite.modelPackage p ∈
          (TrainCustom.convert_to_coreml model env name).2.1) ∧
       (∃ p, TrainCustom.ConvertWrite.tokenizerConfig p ∈
          (TrainCustom.convert_to_coreml model env name).2.1))) ∧
    (TrainCustom.convert_to_coreml model env name).2.2 ≤ 1 ∧
    (model = none →
      TrainCustom.convert_to_coreml model env name = (false, [], 0)) ∧
    ((TrainCustom.convert_to_coreml model env name).1 = true →
      env.convert_result = Except.ok () ∧ env.save_result = Except.ok () ∧
        env.json_result = Except.ok ()) := by
  obtain ⟨cr, sr, jr⟩ := env
  cases model <;> cases cr <;> cases sr <;> cases jr <;>
    simp [TrainCustom.convert_to_coreml]

/-- Witness for claim C8 at the no-model case. -/
theorem c8_witness :
    TrainCustom.convert_to_coreml (none : Option Unit)
        ⟨Except.ok (), Except.ok (), Except.ok ()⟩ "EmotionSentimentModel" =
      (false, [], 0) :=
  (c8_convert_error_handling (none : Option Unit)
    ⟨Except.ok (), Except.ok (), Except.ok ()⟩ "EmotionSentimentModel").2.2.1 rfl

lemma sentiment_of_mem_filterMap {f : String → String} {rows : List EmotionRow}
    {p : String × String}
    (hp : p ∈ rows.filterMap (fun r =>
      match r.Emotion.bind emotion_to_sentiment, r.Text with
      | some s, some t => some (f t, s)
      | _, _ => none)) :
    p.2 = "positive" ∨ p.2 = "negative" ∨ p.2 = "neutral" := by
  rcases List.mem_filterMap.mp hp with ⟨r, _, heq⟩
  cases hE : r.Emotion.bind emotion_to_sentiment with
  | none =>
    rw [hE] at heq
    cases hT : r.Text <;> rw [hT] at heq <;> simp at heq
  | some sent =>
    cases hT : r.Text with
    | none =>
      rw [hE, hT] at heq
      simp at heq
    | some t =>
      rw [hE, hT] at heq
      simp only [Option.some.injEq] at heq
      rcases Option.bind_eq_some.mp hE with ⟨e, _, he2⟩
      have := emotion_to_sentiment_cases e sent he2
      rw [← heq]
      simpa using this

/-- Claim C9: every (text, label) pair produced by the dataset-loading
pipelines (load_emotion_dataset of fast_85_accuracy_model.py and of
advanced_ensemble_model.py, and load_emotion_dataset followed by
prepare_training_data of train_custom_model.py) has a label in
{positive, negative, neutral} — rows with unmapped emotions are dropped
as NaN — and a preprocessed text strictly longer than 10 characters. -/
theorem c9_dataset_invariant (rows : List EmotionRow) (p : String × String)
    (hp : p ∈ FastModel.load_emotion_dataset rows ∨
          p ∈ AdvancedModel.load_emotion_dataset rows ∨
          p ∈ TrainCustom.prepare_training_data (TrainCustom.load_emotion_dataset rows)) :
    (p.2 = "positive" ∨ p.2 = "negative" ∨ p.2 = "neutral") ∧ 10 < p.1.length := by
  rcases hp with hp | hp | hp
  · rw [FastModel.load_emotion_dataset] at hp
    have hlen := (List.mem_filter.mp hp).2
    have hmem := (List.mem_filter.mp hp).1
    exact ⟨sentiment_of_mem_filterMap hmem, by simpa using hlen⟩
  · rw [AdvancedModel.load_emotion_dataset] at hp
    have hlen := (List.mem_filter.mp hp).2
    have hmem := (List.mem_filter.mp hp).1
    exact ⟨sentiment_of_mem_filterMap hmem, by simpa using hlen⟩
  · rw [TrainCustom.prepare_training_data] at hp
    have hlen := (List.mem_filter.mp hp).2
    have hmem := (List.mem_filter.mp hp).1
    rcases List.mem_map.mp hmem with ⟨q, hq, rfl⟩
    rw [TrainCustom.load_emotion_dataset] at hq
    refine ⟨?_, by simpa using hlen⟩
    exact @sentiment_of_mem_filterMap (fun t => t) rows q hq

/-- Witness for claim C9 at a concrete one-row dataset. -/
theorem c9_witness :
    ((("what a wonderful day today", "positive") : String × String).2 = "positive" ∨
     (("what a wonderful day today", "positive") : String × String).2 = "negative" ∨
     (("what a wonderful day today", "positive") : String × String).2 = "neutral") ∧
    10 < (("what a wonderful day today", "positive") : String × String).1.length :=
  c9_dataset_invariant [⟨some "happy", some "What a wonderful day TODAY"⟩]
    ("what a wonderful day today", "positive") (Or.inl (by decide))
